import Mathlib

/-!
Verification development for the Shadowrun backend engine.

Shallow embedding of the dice engine (utils/dice_roller.py, utils/validators.py),
the combat turn/damage routes (routes/combat.py) and the Matrix action engine
(routes/matrix.py), with theorems checking the natural-language specification
against the embedded code.

Modelling conventions:
* `random.randint(1, 6)` draws are modelled by a stream `die : Nat → Nat`
  giving the value of the i-th draw; claims that need fairness bounds take
  them as hypotheses.
* Python exceptions and error responses are modelled with `Except String`.
* The `while sixes:` explosion loop of `roll_shadowrun` and the `while` loop
  of `roll_extended_test` are unbounded in principle; they are embedded with
  an explicit fuel parameter, exhaustion returning an error. All theorems
  about these loops are conditioned on a normal (non-fuel) result, which is
  faithful to runs of the source that terminate.
-/

/-- A stream of pre-drawn die values: `die i` is the value of the i-th call to
`self.random.randint(1, 6)` (or `randint(1, size)` for generic dice). -/
abbrev Die := Nat → Nat

/-- Draw `n` consecutive values from the stream starting at index `idx`
(the list comprehension / for-loop of the source). -/
def rollN (die : Die) (idx : Nat) : Nat → List Nat
  | 0 => []
  | n + 1 => die idx :: rollN die (idx + 1) n

/-- Result dictionary of `DiceRoller.roll_shadowrun`. -/
structure PoolResult where
  dice_pool : Nat
  rolls : List Nat
  hits : Nat
  ones : Nat
  glitch : Bool
  critical_glitch : Bool
  edge_used : Bool
deriving DecidableEq

/-- Final assembly of the result dict of `roll_shadowrun`.  The source computes
`glitch = ones > len(rolls) * 0.5`; multiplying an int by the float `0.5` is
exact, so the comparison is exactly `2 * ones > len(rolls)`. -/
def mkPoolResult (dice_pool : Nat) (rolls : List Nat) (hits ones : Nat)
    (edge_used : Bool) : PoolResult :=
  let glitch := decide (rolls.length < 2 * ones)
  { dice_pool := dice_pool, rolls := rolls, hits := hits, ones := ones,
    glitch := glitch, critical_glitch := glitch && decide (hits = 0),
    edge_used := edge_used }

/-- The `while sixes:` loop of `roll_shadowrun`: each generation rolls one new
die per pending 6 and appends it to `extra_rolls`; the new 6s form the next
generation.  `s` is the number of pending sixes, `idx` the stream position,
`fuel` bounds the number of generations (the source loop is unbounded but
terminates almost surely). -/
def explode (die : Die) : Nat → Nat → Nat → Option (List Nat)
  | 0, _, s => if s = 0 then some [] else none
  | fuel + 1, idx, s =>
    if s = 0 then some []
    else
      let gen := rollN die idx s
      (explode die fuel (idx + s) (gen.count 6)).map (fun rest => gen ++ rest)

/-- `DiceRoller.roll_shadowrun(dice_pool, edge_used)`.  The initial loop counts
hits (value ≥ 5) and ones (value = 1) over the initial pool; the explosion
loop increments `hits` for exploded values ≥ 5 but never touches `ones`. -/
def roll_shadowrun (die : Die) (fuel : Nat) (dice_pool : Nat)
    (edge_used : Bool) : Except String PoolResult :=
  if dice_pool < 1 then .error "Dice pool must be at least 1"
  else if 50 < dice_pool then .error "Dice pool cannot exceed 50"
  else
    let initial := rollN die 0 dice_pool
    let hits0 := initial.countP (fun r => decide (5 ≤ r))
    let ones0 := initial.countP (fun r => decide (r = 1))
    if edge_used then
      match explode die fuel dice_pool (initial.count 6) with
      | none => .error "explosion loop did not terminate within fuel"
      | some extra =>
          let hits := hits0 + extra.countP (fun r => decide (5 ≤ r))
          .ok (mkPoolResult dice_pool (initial ++ extra) hits ones0 true)
    else
      .ok (mkPoolResult dice_pool initial hits0 ones0 false)

/-- Result dictionary of `DiceRoller.roll_extended_test`. -/
structure ExtendedResult where
  success : Bool
  threshold : Nat
  total_hits : Nat
  rolls_made : Nat
  roll_history : List PoolResult
  glitched : Bool
deriving DecidableEq

/-- The guard `if max_rolls and rolls_made > max_rolls` of the source:
`max_rolls=None` (and the falsy `0`) disables the limit. -/
def maxHit (max_rolls : Option Nat) (rolls_made : Nat) : Bool :=
  match max_rolls with
  | none => false
  | some m => decide (m ≠ 0) && decide (m < rolls_made)

/-- Assembles the return dict of `roll_extended_test`
(`success = total_hits >= threshold`). -/
def mkExtendedResult (threshold rolls_made total_hits : Nat)
    (hist : List PoolResult) (glitched : Bool) : ExtendedResult :=
  { success := decide (threshold ≤ total_hits), threshold := threshold,
    total_hits := total_hits, rolls_made := rolls_made,
    roll_history := hist, glitched := glitched }

/-- The `while total_hits < threshold:` loop of `roll_extended_test`.
Each entry increments `rolls_made`, breaks if the max-roll guard fires,
otherwise rolls `max(1, dice_pool - (rolls_made - 1))` dice (edge never used),
appends to the history, accumulates hits, and breaks on a critical glitch.
The stream is shifted past the consumed draws on each recursive call. -/
def extLoop (dice_pool threshold : Nat) (max_rolls : Option Nat) :
    Nat → Die → Nat → Nat → List PoolResult → Bool →
    Except String ExtendedResult
  | 0, _, _, _, _, _ => .error "extended test loop did not terminate within fuel"
  | fuel + 1, die, rolls_made, total_hits, hist, glitched =>
    if total_hits < threshold then
      let rm := rolls_made + 1
      if maxHit max_rolls rm then
        .ok (mkExtendedResult threshold rm total_hits hist glitched)
      else
        let current_pool := max 1 (dice_pool - (rm - 1))
        match roll_shadowrun die 0 current_pool false with
        | .error e => .error e
        | .ok r =>
            let hist := hist ++ [r]
            let total := total_hits + r.hits
            let glitched := glitched || r.glitch
            if r.critical_glitch then
              .ok (mkExtendedResult threshold rm total hist glitched)
            else
              extLoop dice_pool threshold max_rolls fuel
                (fun i => die (current_pool + i)) rm total hist glitched
    else
      .ok (mkExtendedResult threshold rolls_made total_hits hist glitched)

/-- `DiceRoller.roll_extended_test(dice_pool, threshold, interval, max_rolls)`
(the `interval` string is only echoed into `time_taken` and is omitted). -/
def roll_extended_test (die : Die) (fuel : Nat) (dice_pool threshold : Nat)
    (max_rolls : Option Nat) : Except String ExtendedResult :=
  extLoop dice_pool threshold max_rolls fuel die 0 0 [] false

/-! ## Dice notation validation (utils/validators.py `DiceNotationSchema`) and
`DiceRoller.parse_notation` / `DiceRoller.roll`.

Strings are embedded as `List Char`; `\d` of the Python regex is embedded as
the ASCII digit class (on non-ASCII digits Python's `\d` matches more, which
is outside the scope of this embedding and is noted where relevant). -/

/-- The whitespace class stripped by Python's `str.strip()` (ASCII part). -/
def isPySpace (c : Char) : Bool :=
  c = ' ' || c = '\t' || c = '\n' || c = '\r' || c = '\x0b' || c = '\x0c'

/-- `str.strip()`: drop leading and trailing whitespace. -/
def stripPy (cs : List Char) : List Char :=
  ((cs.dropWhile isPySpace).reverse.dropWhile isPySpace).reverse

/-- `int()` on a run of (ASCII) digit characters. -/
def digitsToNat (ds : List Char) : Nat :=
  ds.foldl (fun a c => 10 * a + (c.toNat - '0'.toNat)) 0

/-- Anchored match of `^(\d{b1})d(\d{b2})([+\-]\d{b3})?$` against `cs`,
where each `bi` is a predicate on the length of the digit run (e.g. `{1,2}`).
Since a maximal digit run can only be followed by `d`, `+`, `-` or the end of
the string — none of which a backtracked digit could match — greedy maximal
munch coincides with the backtracking semantics of `re.match` here.
Returns `(num_dice, dice_size, modifier)`. -/
def matchDice (b1 b2 b3 : Nat → Bool) (cs : List Char) :
    Option (Nat × Nat × Int) :=
  let d1 := cs.takeWhile Char.isDigit
  let r1 := cs.dropWhile Char.isDigit
  if d1.length = 0 || !b1 d1.length then none
  else
    match r1 with
    | 'd' :: r2 =>
      let d2 := r2.takeWhile Char.isDigit
      let r3 := r2.dropWhile Char.isDigit
      if d2.length = 0 || !b2 d2.length then none
      else
        match r3 with
        | [] => some (digitsToNat d1, digitsToNat d2, 0)
        | c :: r4 =>
          if c = '+' || c = '-' then
            let d3 := r4.takeWhile Char.isDigit
            let r5 := r4.dropWhile Char.isDigit
            if d3.length = 0 || !b3 d3.length || !r5.isEmpty then none
            else
              some (digitsToNat d1, digitsToNat d2,
                if c = '-' then -(digitsToNat d3 : Int) else (digitsToNat d3 : Int))
          else none
    | _ => none

/-- `DiceNotationSchema.validate_dice_notation` plus the pydantic field
constraints `min_length=1, max_length=20` (checked on the raw string).
The validator strips the string, matches `^(\d{1,2})d(\d{1,3})([+\-]\d{1,2})?$`
against its lower-cased form, re-extracts the numbers with the unanchored
`(\d+)d(\d+)` (same groups, since the anchored pattern already matched), and
rejects only `num_dice > 20` and `dice_size > 100`.  Returns the stripped
string in the original case. -/
def validate_dice_notation (s : List Char) : Except String (List Char) :=
  if s.length < 1 then .error "ensure this value has at least 1 characters"
  else if 20 < s.length then .error "ensure this value has at most 20 characters"
  else
    let v := stripPy s
    match matchDice (fun l => decide (l ≤ 2)) (fun l => decide (l ≤ 3))
        (fun l => decide (l ≤ 2)) (v.map Char.toLower) with
    | none => .error "Invalid dice notation format"
    | some (num_dice, dice_size, _) =>
      if 20 < num_dice then .error "Maximum 20 dice allowed"
      else if 100 < dice_size then .error "Maximum d100 allowed"
      else .ok v

/-- `DiceRoller.parse_notation`: validate, then re-parse the (already
stripped) string with `^(\d+)d(\d+)([+\-]\d+)?$` on its lower-cased form. -/
def parse_notation (s : List Char) : Except String (Nat × Nat × Int) :=
  match validate_dice_notation s with
  | .error e => .error ("Invalid dice notation: " ++ e)
  | .ok v =>
    match matchDice (fun _ => true) (fun _ => true) (fun _ => true)
        (v.map Char.toLower) with
    | none => .error "Invalid dice notation"
    | some res => .ok res

/-- The `DiceRoll` dataclass (the notation string field is named `nota`,
`notation` being reserved in Lean). -/
structure DiceRoll where
  num_dice : Nat
  dice_size : Nat
  modifier : Int
  rolls : List Nat
  total : Int
  nota : List Char
deriving DecidableEq

/-- `DiceRoller.roll(notation)`: parse, draw `num_dice` dice of size
`dice_size`, sum and add the modifier.  `random.randint(1, 0)` raises
(`dice_size = 0` with at least one die to draw); each drawn value comes from
the stream, uniform on `[1, dice_size]` in the source. -/
def roll (die : Die) (s : List Char) : Except String DiceRoll :=
  match parse_notation s with
  | .error e => .error e
  | .ok (num_dice, dice_size, modifier) =>
    if 1 ≤ num_dice ∧ dice_size = 0 then
      .error "empty range for randrange"
    else
      let rolls := rollN die 0 num_dice
      .ok { num_dice := num_dice, dice_size := dice_size, modifier := modifier,
            rolls := rolls, total := (rolls.sum : Int) + modifier,
            nota := stripPy s }

/-- The `DiceRoll` value that `roll("0d6")` actually produces (no exception,
zero dice drawn, total 0). -/
def zeroDiceRoll : DiceRoll :=
  { num_dice := 0, dice_size := 6, modifier := 0, rolls := [], total := 0,
    nota := "0d6".toList }


/-! ## Combat routes (routes/combat.py) and the data model of app.py.

Integer columns are embedded as `Int`, string columns as `String`.
`DateTime`, `Float` and raw-JSON columns that no route logic reads
(`tags`, `position`, timestamps) are omitted. -/

/-- The `Combatant` model (app.py).  `type` is a Lean keyword and is embedded
as `ctype`. -/
structure Combatant where
  id : String
  combat_id : String
  name : String
  ctype : String
  initiative : Int
  initiative_score : Int
  actions : Int
  reaction : Int
  intuition : Int
  edge : Int
  current_edge : Int
  physical_damage : Int
  stun_damage : Int
  physical_monitor : Int
  stun_monitor : Int
  status : String
deriving DecidableEq

/-- The mutable part of the `Combat` model that `next_turn` touches. -/
structure CombatEnc where
  current_round : Int
  active_index : Nat
deriving DecidableEq

/-- The damage-application step of the `/damage` route: clamp both tracks
into `[0, monitor]` (`max(0, min(old + delta, monitor))`), then derive the
status — physical checked first, `elif` for stun, else unchanged. -/
def apply_damage (c : Combatant) (physical_damage stun_damage : Int) :
    Combatant :=
  let p := max 0 (min (c.physical_damage + physical_damage) c.physical_monitor)
  let s := max 0 (min (c.stun_damage + stun_damage) c.stun_monitor)
  let status :=
    if c.physical_monitor ≤ p then "dead"
    else if c.stun_monitor ≤ s then "unconscious"
    else c.status
  { c with physical_damage := p, stun_damage := s, status := status }

/-- The turn-advance step of the `/next-turn` route: increment the active
index; on wrap-around reset it, increment the round, and decrement every
combatant's `actions` with a floor of 0.  An empty roster is a 400 error. -/
def next_turn (enc : CombatEnc) (roster : List Combatant) :
    Except String (CombatEnc × List Combatant) :=
  if roster.isEmpty then .error "No combatants in combat"
  else
    let i := enc.active_index + 1
    if roster.length ≤ i then
      .ok ({ current_round := enc.current_round + 1, active_index := 0 },
        roster.map (fun c => { c with actions := max 0 (c.actions - 1) }))
    else
      .ok ({ enc with active_index := i }, roster)

/-- Iterated `next_turn` calls (each call re-reads the state it produced;
an error aborts the sequence). -/
def next_turnN : Nat → CombatEnc → List Combatant →
    Except String (CombatEnc × List Combatant)
  | 0, enc, roster => .ok (enc, roster)
  | n + 1, enc, roster =>
    match next_turn enc roster with
    | .error e => .error e
    | .ok (enc', roster') => next_turnN n enc' roster'

/-! ## Matrix engine (routes/matrix.py).

`security` is embedded as `Nat`: every node-creation site in the repository
uses the non-negative constants 4–8 (and the column default 5), and
`overwatch_score` as `Nat` (column default 0, only ever set to
`min(40, old + difficulty)`).  The ASDF persona attributes come from client
data and are embedded as `Int`.  Float position columns are omitted.
Primary-key lookups (`query.get`, `filter_by(id=...).first()`) mutate the
single matching row; they are embedded as an id-guarded map over the row
list, which coincides because primary keys are unique. -/

/-- The `MatrixNode` model (app.py); `connected_nodes` holds the decoded JSON
id list (`NULL` and `"[]"` both behave as the empty list in the routes). -/
structure MatrixNode where
  id : String
  grid_id : String
  name : String
  node_type : String
  security : Nat
  encrypted : Bool
  discovered : Bool
  compromised : Bool
  data_payload : Option String
  connected_nodes : List String
deriving DecidableEq

/-- The `MatrixPersona` model (app.py), ASDF attributes and overwatch. -/
structure MatrixPersona where
  id : String
  attack : Int
  sleaze : Int
  data_processing : Int
  firewall : Int
  overwatch_score : Nat
deriving DecidableEq

/-- The `MatrixAction` audit record written by `perform_matrix_action`. -/
structure MatrixAction where
  persona_id : String
  action_type : String
  target_node_id : Option String
  success : Bool
  overwatch_generated : Nat
deriving DecidableEq

/-- The `IceProgram` model fields that the action route touches. -/
structure IceProgram where
  id : String
  node_id : Option String
  status : String
deriving DecidableEq

/-- The database state the Matrix action route reads and writes. -/
structure MatrixState where
  nodes : List MatrixNode
  personas : List MatrixPersona
  ice : List IceProgram
  actions : List MatrixAction
deriving DecidableEq

/-- The JSON body returned by `perform_matrix_action`. -/
structure ActionRes where
  success : Bool
  roll : Nat
  attribute_used : Int
  difficulty : Nat
  overwatch_generated : Nat
  current_overwatch : Nat
deriving DecidableEq

/-- `MatrixNode.query.get(target_node_id) if target_node_id else None`. -/
def findNode (nodes : List MatrixNode) (tid : Option String) :
    Option MatrixNode :=
  match tid with
  | none => none
  | some i => nodes.find? (fun n => n.id == i)

/-- The attribute-selection chain of `perform_matrix_action`.  For `hack` the
source reads `target_node.compromised` before checking that a target exists,
so a missing target raises `AttributeError` (uncaught). -/
def selectAttribute (persona : MatrixPersona) (action_type : String)
    (target : Option MatrixNode) : Except String Int :=
  if action_type = "hack" then
    match target with
    | none => .error "AttributeError: NoneType object has no attribute compromised"
    | some t => .ok (if !t.compromised then persona.sleaze else persona.attack)
  else if action_type = "search" then .ok persona.data_processing
  else if action_type = "crash" then .ok persona.attack
  else .ok persona.sleaze

/-- Discovery of the nodes one hop from `t`: each id in `t.connected_nodes`
is looked up within `t.grid_id` and, when found, marked discovered. -/
def discoverConnected (nodes : List MatrixNode) (t : MatrixNode) :
    List MatrixNode :=
  nodes.map (fun n =>
    if n.grid_id == t.grid_id && t.connected_nodes.contains n.id then
      { n with discovered := true }
    else n)

/-- The success branch of a `hack`: set the target compromised, then discover
its directly connected nodes. -/
def hackUpdate (nodes : List MatrixNode) (t : MatrixNode) : List MatrixNode :=
  discoverConnected
    (nodes.map (fun n => if n.id == t.id then { n with compromised := true } else n))
    t

/-- `IceProgram.query.filter_by(node_id=...).first()` then `status='crashed'`:
only the first matching ICE row is updated. -/
def crashFirstIce : List IceProgram → String → List IceProgram
  | [], _ => []
  | ic :: rest, tid =>
    if ic.node_id == some tid then { ic with status := "crashed" } :: rest
    else ic :: crashFirstIce rest tid

/-- The node-list update of the success branch (hack / search / other). -/
def successNodes (nodes : List MatrixNode) (action_type : String)
    (target : Option MatrixNode) : List MatrixNode :=
  if action_type = "hack" then
    match target with
    | some t => hackUpdate nodes t
    | none => nodes
  else if action_type = "search" then
    match target with
    | some t => discoverConnected nodes t
    | none => nodes
  else nodes

/-- The ICE update of the success branch (`crash` against an `ice` node). -/
def successIce (ice : List IceProgram) (action_type : String)
    (target : Option MatrixNode) (tid : Option String) : List IceProgram :=
  if action_type = "crash" then
    match target, tid with
    | some t, some i => if t.node_type == "ice" then crashFirstIce ice i else ice
    | _, _ => ice
  else ice

/-- The overwatch update of the failure branch:
`persona.overwatch_score = min(40, overwatch_score + difficulty)`. -/
def bumpOverwatch (personas : List MatrixPersona) (pid : String)
    (difficulty : Nat) : List MatrixPersona :=
  personas.map (fun p =>
    if p.id == pid then
      { p with overwatch_score := min 40 (p.overwatch_score + difficulty) }
    else p)

/-- The resolution tail of `perform_matrix_action`, once the persona is found
and the attribute chosen: `difficulty = target.security or 3`, success check
`roll + attribute >= difficulty`, the success/failure effects, and the audit
record append. -/
def resolveAction (st : MatrixState) (persona : MatrixPersona)
    (persona_id action_type : String) (target_node_id : Option String)
    (roll : Nat) (attr : Int) : MatrixState × ActionRes :=
  let target := findNode st.nodes target_node_id
  let difficulty : Nat := match target with | some t => t.security | none => 3
  let success := decide ((difficulty : Int) ≤ (roll : Int) + attr)
  let overwatch : Nat := if success then 0 else difficulty
  let newOW : Nat :=
    if success then persona.overwatch_score
    else min 40 (persona.overwatch_score + difficulty)
  ({ nodes := if success then successNodes st.nodes action_type target
              else st.nodes,
     personas := if success then st.personas
                 else bumpOverwatch st.personas persona_id difficulty,
     ice := if success then successIce st.ice action_type target target_node_id
            else st.ice,
     actions := st.actions ++
       [{ persona_id := persona_id, action_type := action_type,
          target_node_id := target_node_id, success := success,
          overwatch_generated := overwatch }] },
   { success := success, roll := roll, attribute_used := attr,
     difficulty := difficulty, overwatch_generated := overwatch,
     current_overwatch := newOW })

/-- `perform_matrix_action(session_id)` (routes/matrix.py): look up the
persona (404 if missing), fetch the target node, draw `2d6` (`d1`, `d2`),
choose the attribute (which is where a `hack` without a target raises), and
resolve.  The `difficulty` and the dice are computed by the source before the
attribute selection; both are pure, so the only observable ordering — the
exception firing before any state mutation or audit append — is preserved. -/
def perform_matrix_action (st : MatrixState) (persona_id action_type : String)
    (target_node_id : Option String) (d1 d2 : Nat) :
    Except String (MatrixState × ActionRes) :=
  match st.personas.find? (fun p => p.id == persona_id) with
  | none => .error "Persona not found"
  | some persona =>
    match selectAttribute persona action_type (findNode st.nodes target_node_id) with
    | .error e => .error e
    | .ok attr =>
      .ok (resolveAction st persona persona_id action_type target_node_id
        (d1 + d2) attr)

/-- One request to the Matrix action route, with its two d6 draws. -/
structure MCall where
  persona_id : String
  action_type : String
  target_node_id : Option String
  d1 : Nat
  d2 : Nat
deriving DecidableEq

/-- A sequence of Matrix action calls: each successful call commits its new
state; a call that errors (404 or uncaught exception before the commit)
leaves the state unchanged. -/
def runActions (st : MatrixState) : List MCall → MatrixState
  | [] => st
  | c :: rest =>
    match perform_matrix_action st c.persona_id c.action_type
        c.target_node_id c.d1 c.d2 with
    | .error _ => runActions st rest
    | .ok (st', _) => runActions st' rest

/-- The overwatch score of the persona `pid` within a persona list. -/
def owList (ps : List MatrixPersona) (pid : String) : Nat :=
  match ps.find? (fun p => p.id == pid) with
  | some p => p.overwatch_score
  | none => 0

/-- The overwatch score of the persona `pid` in state `st` (0 if absent). -/
def owOf (st : MatrixState) (pid : String) : Nat :=
  owList st.personas pid

/-! ## Helper lemmas about the dice engine -/

theorem rollN_length (die : Die) : ∀ idx n, (rollN die idx n).length = n := by
  intro idx n
  induction n generalizing idx with
  | zero => rfl
  | succ n ih => simp [rollN, ih]

/-- Every pending 6 produces exactly one recorded extra roll, so the number
of extra rolls equals the pending count plus the 6s among the extras. -/
theorem explode_length (die : Die) :
    ∀ fuel idx s extra, explode die fuel idx s = some extra →
      extra.length = s + extra.count 6 := by
  intro fuel
  induction fuel with
  | zero =>
    intro idx s extra h
    unfold explode at h
    by_cases hs : s = 0
    · simp [hs] at h
      subst h
      simp [hs]
    · simp [hs] at h
  | succ fuel ih =>
    intro idx s extra h
    unfold explode at h
    by_cases hs : s = 0
    · simp [hs] at h
      subst h
      simp [hs]
    · simp only [hs, if_false, Option.map_eq_some'] at h
      obtain ⟨rest, hrest, hext⟩ := h
      have hlen := ih (idx + s) ((rollN die idx s).count 6) rest hrest
      subst hext
      simp [List.count_append, rollN_length, hlen]

/-- A convenient inversion of `roll_shadowrun ... = .ok r`. -/
theorem roll_shadowrun_ok (die : Die) (fuel dice_pool : Nat) (edge : Bool)
    (r : PoolResult) (h : roll_shadowrun die fuel dice_pool edge = .ok r) :
    ∃ extra, (edge = false → extra = []) ∧
      (edge = true →
        explode die fuel dice_pool ((rollN die 0 dice_pool).count 6) = some extra) ∧
      r = mkPoolResult dice_pool (rollN die 0 dice_pool ++ extra)
            ((rollN die 0 dice_pool).countP (fun v => decide (5 ≤ v)) +
              extra.countP (fun v => decide (5 ≤ v)))
            ((rollN die 0 dice_pool).countP (fun v => decide (v = 1))) edge := by
  simp only [roll_shadowrun] at h
  split at h
  · exact absurd h (by simp)
  · split at h
    · exact absurd h (by simp)
    · split at h
      · rename_i hedge
        split at h
        · exact absurd h (by simp)
        · rename_i extra hexp
          refine ⟨extra, ?_, fun _ => hexp, ?_⟩
          · intro hh
            rw [hedge] at hh
            exact absurd hh (by simp)
          · simp only [Except.ok.injEq] at h
            simp [← h, hedge]
      · rename_i hedge
        have hef : edge = false := by
          cases edge
          · rfl
          · exact absurd rfl hedge
        refine ⟨[], fun _ => rfl, ?_, ?_⟩
        · intro hh
          rw [hef] at hh
          exact absurd hh (by simp)
        · simp only [Except.ok.injEq] at h
          simp [← h, hef]

/-! ## Claim C1 -/

/-- A die stream whose first draw is a 6 and every later draw is a 1: with
pool 1 and Edge, the single 6 explodes into a 1. -/
def die61 : Die := fun i => if i = 0 then 6 else 1

/-- The result `roll_shadowrun(1, edge_used=True)` produces on `die61`. -/
def poolR61 : PoolResult :=
  { dice_pool := 1, rolls := [6, 1], hits := 1, ones := 0, glitch := false,
    critical_glitch := false, edge_used := true }

/-- C1 counterexample: for `rollPool(1, edgeUsed=True)` with draws `[6, 1]`
the final rolls list is `[6, 1]`, which contains one value equal to 1, yet
the returned `ones` is 0 — the explosion loop never increments `ones`, so
`ones` is not the number of 1s in the (post-explosion) rolls list. -/
theorem c1_ones_counterexample :
    roll_shadowrun die61 2 1 true = .ok poolR61 ∧
    poolR61.ones = 0 ∧ poolR61.rolls.count 1 = 1 := by
  refine ⟨rfl, rfl, rfl⟩

/-- C1 (amended): for every terminating `rollPool(poolSize, edgeUsed)` result,
`hits` counts the values ≥ 5 over the final rolls list (exploded dice
included), `ones` counts the values equal to 1 among the initial `poolSize`
dice only (exploded dice never increment `ones`), `glitch` holds iff that
`ones` exceeds `floor(len(rolls)/2)` over the final (post-explosion) rolls
list, and `critical_glitch` holds iff `glitch` holds and `hits = 0`. -/
theorem c1_pool_invariants (die : Die) (fuel dice_pool : Nat) (edge : Bool)
    (r : PoolResult) (h : roll_shadowrun die fuel dice_pool edge = .ok r) :
    r.dice_pool = dice_pool ∧
    r.hits = r.rolls.countP (fun v => decide (5 ≤ v)) ∧
    r.ones = (r.rolls.take dice_pool).countP (fun v => decide (v = 1)) ∧
    (r.glitch = true ↔ r.rolls.length / 2 < r.ones) ∧
    (r.critical_glitch = true ↔ (r.glitch = true ∧ r.hits = 0)) := by
  obtain ⟨extra, -, -, hr⟩ := roll_shadowrun_ok die fuel dice_pool edge r h
  have hlen : (rollN die 0 dice_pool).length = dice_pool :=
    rollN_length die 0 dice_pool
  subst hr
  refine ⟨rfl, ?_, ?_, ?_, ?_⟩
  · simp [mkPoolResult, List.countP_append]
  · simp only [mkPoolResult]
    have htake := List.take_left (rollN die 0 dice_pool) extra
    rw [hlen] at htake
    rw [htake]
  · simp only [mkPoolResult, decide_eq_true_eq]
    omega
  · simp only [mkPoolResult, Bool.and_eq_true, decide_eq_true_eq]

/-- C1 witness: the amended invariants instantiated on the concrete run
`rollPool(1, edge)` with draws `[6, 1]`. -/
theorem c1_pool_invariants_witness :
    poolR61.dice_pool = 1 ∧
    poolR61.hits = poolR61.rolls.countP (fun v => decide (5 ≤ v)) ∧
    poolR61.ones = (poolR61.rolls.take 1).countP (fun v => decide (v = 1)) ∧
    (poolR61.glitch = true ↔ poolR61.rolls.length / 2 < poolR61.ones) ∧
    (poolR61.critical_glitch = true ↔ (poolR61.glitch = true ∧ poolR61.hits = 0)) :=
  c1_pool_invariants die61 2 1 true poolR61 rfl

/-! ## Claim C9 -/

/-- C9: with Edge, the final rolls list contains exactly one extra recorded
roll for every 6 in it (so its length is the pool plus the number of 6s among
all rolls, initial and exploded); without Edge no rerolls happen and the list
has exactly `poolSize` entries.  Conditioned on the explosion loop having
terminated, as it does almost surely in the source. -/
theorem c9_explosion_counts (die : Die) (fuel dice_pool : Nat) (edge : Bool)
    (r : PoolResult) (h : roll_shadowrun die fuel dice_pool edge = .ok r) :
    (edge = false → r.rolls.length = dice_pool) ∧
    (edge = true → r.rolls.length = dice_pool + r.rolls.count 6) := by
  obtain ⟨extra, hnoedge, hexp, hr⟩ := roll_shadowrun_ok die fuel dice_pool edge r h
  have hlen : (rollN die 0 dice_pool).length = dice_pool :=
    rollN_length die 0 dice_pool
  subst hr
  constructor
  · intro he
    simp [mkPoolResult, hnoedge he, hlen]
  · intro he
    have hext := explode_length die fuel dice_pool
      ((rollN die 0 dice_pool).count 6) extra (hexp he)
    simp [mkPoolResult, List.count_append, hlen, hext]

/-- C9 witness: the count identities on the concrete Edge run with draws
`[6, 1]` (one 6, so one extra recorded roll: 2 = 1 + 1). -/
theorem c9_explosion_counts_witness :
    (true = false → poolR61.rolls.length = 1) ∧
    (true = true → poolR61.rolls.length = 1 + poolR61.rolls.count 6) :=
  c9_explosion_counts die61 2 1 true poolR61 rfl

/-! ## Claim C5 -/

/-- C5: with any integer deltas (large negative ones included), `applyDamage`
clamps both damage tracks to `clamp(old + delta, 0, monitor)`, so damage
never leaves `[0, monitor]`; afterwards the status is `dead` exactly when the
clamped physical damage equals the physical monitor (physical wins even when
the stun track simultaneously fills), else `unconscious` exactly when the
clamped stun damage equals the stun monitor, else unchanged.  The source
compares with `>=`, which coincides with `==` on clamped values; monitors are
non-negative in every reachable state (creation default 10, column default). -/
theorem c5_damage_clamped (c : Combatant) (phys stun : Int)
    (hp : 0 ≤ c.physical_monitor) (hs : 0 ≤ c.stun_monitor) :
    (0 ≤ (apply_damage c phys stun).physical_damage ∧
      (apply_damage c phys stun).physical_damage ≤ c.physical_monitor) ∧
    (0 ≤ (apply_damage c phys stun).stun_damage ∧
      (apply_damage c phys stun).stun_damage ≤ c.stun_monitor) ∧
    (apply_damage c phys stun).physical_damage =
      max 0 (min (c.physical_damage + phys) c.physical_monitor) ∧
    (apply_damage c phys stun).stun_damage =
      max 0 (min (c.stun_damage + stun) c.stun_monitor) ∧
    (apply_damage c phys stun).status =
      (if (apply_damage c phys stun).physical_damage = c.physical_monitor then
        "dead"
       else if (apply_damage c phys stun).stun_damage = c.stun_monitor then
        "unconscious"
       else c.status) := by
  have hple : max 0 (min (c.physical_damage + phys) c.physical_monitor) ≤
      c.physical_monitor := max_le hp (min_le_right _ _)
  have hsle : max 0 (min (c.stun_damage + stun) c.stun_monitor) ≤
      c.stun_monitor := max_le hs (min_le_right _ _)
  have h1 : (c.physical_monitor ≤
      max 0 (min (c.physical_damage + phys) c.physical_monitor)) ↔
      (max 0 (min (c.physical_damage + phys) c.physical_monitor) =
        c.physical_monitor) := ⟨fun h => le_antisymm hple h, fun h => h.ge⟩
  have h2 : (c.stun_monitor ≤
      max 0 (min (c.stun_damage + stun) c.stun_monitor)) ↔
      (max 0 (min (c.stun_damage + stun) c.stun_monitor) = c.stun_monitor) :=
    ⟨fun h => le_antisymm hsle h, fun h => h.ge⟩
  refine ⟨⟨le_max_left _ _, hple⟩, ⟨le_max_left _ _, hsle⟩, rfl, rfl, ?_⟩
  simp only [apply_damage, h1, h2]

/-- C5 witness: a combatant with both monitors 10, hit with deltas
`(+25, +25)` — both tracks clamp to 10 and physical death wins. -/
def cmbD : Combatant :=
  { id := "c1", combat_id := "k", name := "Dee", ctype := "npc",
    initiative := 10, initiative_score := 12, actions := 1, reaction := 5,
    intuition := 3, edge := 2, current_edge := 2, physical_damage := 0,
    stun_damage := 0, physical_monitor := 10, stun_monitor := 10,
    status := "active" }

theorem c5_damage_clamped_witness :
    (0 ≤ (apply_damage cmbD 25 25).physical_damage ∧
      (apply_damage cmbD 25 25).physical_damage ≤ cmbD.physical_monitor) ∧
    (0 ≤ (apply_damage cmbD 25 25).stun_damage ∧
      (apply_damage cmbD 25 25).stun_damage ≤ cmbD.stun_monitor) ∧
    (apply_damage cmbD 25 25).physical_damage =
      max 0 (min (cmbD.physical_damage + 25) cmbD.physical_monitor) ∧
    (apply_damage cmbD 25 25).stun_damage =
      max 0 (min (cmbD.stun_damage + 25) cmbD.stun_monitor) ∧
    (apply_damage cmbD 25 25).status =
      (if (apply_damage cmbD 25 25).physical_damage = cmbD.physical_monitor then
        "dead"
       else if (apply_damage cmbD 25 25).stun_damage = cmbD.stun_monitor then
        "unconscious"
       else cmbD.status) :=
  c5_damage_clamped cmbD 25 25 (by decide) (by decide)

/-! ## Claim C6 -/

/-- As long as the running index stays below the roster size, `next_turn`
only advances the index: combatants and round are untouched. -/
theorem next_turnN_no_wrap (roster : List Combatant) (N : Nat)
    (hlen : roster.length = N) :
    ∀ (k : Nat) (rnd : Int) (i : Nat), i + k < N →
      next_turnN k ⟨rnd, i⟩ roster = .ok (⟨rnd, i + k⟩, roster) := by
  intro k
  induction k with
  | zero => intro rnd i _; simp [next_turnN]
  | succ k ih =>
    intro rnd i hik
    have hne : roster.isEmpty = false := by
      cases roster
      · simp at hlen; omega
      · rfl
    have hlt : ¬ roster.length ≤ i + 1 := by omega
    have harith : i + 1 + k = i + (k + 1) := by omega
    unfold next_turnN next_turn
    simp only [hne, Bool.false_eq_true, if_false, hlt]
    rw [← harith]
    exact ih rnd (i + 1) (by omega)

/-- Unfolding one step of the iteration. -/
theorem next_turnN_succ (n : Nat) (enc : CombatEnc) (roster : List Combatant) :
    next_turnN (n + 1) enc roster =
      match next_turn enc roster with
      | .error e => .error e
      | .ok (enc', roster') => next_turnN n enc' roster' := rfl

/-- Splitting an iterated turn advance into two runs. -/
theorem next_turnN_add (a b : Nat) :
    ∀ (enc : CombatEnc) (roster : List Combatant),
      next_turnN (a + b) enc roster =
        match next_turnN a enc roster with
        | .error e => .error e
        | .ok (enc', roster') => next_turnN b enc' roster' := by
  induction a with
  | zero => intro enc roster; simp [next_turnN]
  | succ a ih =>
    intro enc roster
    rw [Nat.succ_add, next_turnN_succ (a + b), next_turnN_succ a]
    cases h : next_turn enc roster with
    | error e => rfl
    | ok p =>
      obtain ⟨enc', roster'⟩ := p
      exact ih enc' roster'

/-- C6: starting from `active_index = 0` on a roster of `N ≥ 1` combatants,
the first `N - 1` calls only advance the index (no round change, no actions
decrement), and after exactly `N` calls the index is back to 0, the round has
increased by exactly 1, and every combatant's `actions` has decreased by
exactly 1 clamped at a floor of 0 (applied exactly once, on the wrapping
call). -/
theorem c6_round_cycle (enc : CombatEnc) (roster : List Combatant) (N : Nat)
    (hlen : roster.length = N) (hN : 1 ≤ N) (h0 : enc.active_index = 0) :
    (∀ k, k < N → next_turnN k enc roster =
      .ok (⟨enc.current_round, k⟩, roster)) ∧
    next_turnN N enc roster =
      .ok (⟨enc.current_round + 1, 0⟩,
        roster.map (fun c => { c with actions := max 0 (c.actions - 1) })) := by
  obtain ⟨rnd, i⟩ := enc
  simp only at h0
  subst h0
  constructor
  · intro k hk
    have := next_turnN_no_wrap roster N hlen k rnd 0 (by omega)
    simpa using this
  · have hsplit := next_turnN_add (N - 1) 1 ⟨rnd, 0⟩ roster
    rw [Nat.sub_add_cancel hN] at hsplit
    rw [hsplit]
    have hfirst := next_turnN_no_wrap roster N hlen (N - 1) rnd 0 (by omega)
    simp only [Nat.zero_add] at hfirst
    rw [hfirst]
    have hne : roster.isEmpty = false := by
      cases roster
      · simp at hlen; omega
      · rfl
    have hwrap : roster.length ≤ (N - 1) + 1 := by omega
    unfold next_turnN next_turn
    simp only [hne, Bool.false_eq_true, if_false, if_pos hwrap, next_turnN]

/-- C6 witness: two combatants with `actions` 2 and 0; after exactly 2 calls
the round advances from 1 to 2 and the actions drop to 1 and 0. -/
def encW : CombatEnc := { current_round := 1, active_index := 0 }

def cmbW1 : Combatant := { cmbD with id := "w1", name := "Wu", actions := 2 }

def cmbW2 : Combatant := { cmbD with id := "w2", name := "Vee", actions := 0 }

theorem c6_round_cycle_witness :
    next_turnN 2 encW [cmbW1, cmbW2] =
      .ok (⟨encW.current_round + 1, 0⟩,
        [cmbW1, cmbW2].map (fun c => { c with actions := max 0 (c.actions - 1) })) :=
  (c6_round_cycle encW [cmbW1, cmbW2] 2 rfl (by decide) rfl).2

/-! ## Claim C3 -/

/-- A die stream that always shows 2 (no hit, no one, no glitch). -/
def dieAll2 : Die := fun _ => 2

/-- C3 (bug evaluation): `rollExtendedTest(pool=1, threshold=100, maxRolls=1)`
with every die showing 2 performs exactly one pool roll
(`len(roll_history) = 1`), yet returns `rolls_made = 2`: the loop increments
`rolls_made` before checking the limit, so when the max-roll guard stops the
test the returned `rolls_made` is `maxRolls + 1 = len(roll_history) + 1`.
The repository's own test (`test_edge_mechanics.py::test_extended_test`)
asserts `rolls_made <= max_rolls` and `len(roll_history) == rolls_made`. -/
theorem c3_rolls_made_overcount :
    (roll_extended_test dieAll2 3 1 100 (some 1)).toOption.map
        (fun r => (r.rolls_made, r.roll_history.length)) = some (2, 1) := by
  decide

/-! ## Claim C2 -/

/-- C2 (bug evaluation): the notation `"0d6"` passes `DiceNotationSchema`
(the regex `\d{1,2}` admits a zero count and only upper bounds are checked),
`parse_notation` returns `(0, 6, 0)`, and `roll("0d6")` succeeds with an
empty rolls list and total 0 instead of raising — for any die stream.  The
repository's own test (`test_edge_mechanics.py::test_dice_notation_validation`)
expects `roll("0d6")` to raise. -/
theorem c2_zero_count_accepted :
    validate_dice_notation ("0d6".toList) = .ok ("0d6".toList) ∧
    parse_notation ("0d6".toList) = .ok (0, 6, 0) ∧
    roll dieAll2 ("0d6".toList) = .ok zeroDiceRoll ∧
    roll die61 ("0d6".toList) = .ok zeroDiceRoll := by
  exact ⟨rfl, rfl, rfl, rfl⟩

/-! ## Helper lemmas about the Matrix action engine -/

/-- Inversion of a completed Matrix action: the persona was found, the
attribute selection succeeded, and the output is the resolution tail. -/
theorem perform_ok_inv (st : MatrixState) (persona : MatrixPersona)
    (pid aty : String) (tid : Option String) (d1 d2 : Nat)
    (st' : MatrixState) (res : ActionRes)
    (hp : st.personas.find? (fun p => p.id == pid) = some persona)
    (h : perform_matrix_action st pid aty tid d1 d2 = .ok (st', res)) :
    ∃ attr, selectAttribute persona aty (findNode st.nodes tid) = .ok attr ∧
      (st', res) = resolveAction st persona pid aty tid (d1 + d2) attr := by
  unfold perform_matrix_action at h
  rw [hp] at h
  dsimp only at h
  cases hsel : selectAttribute persona aty (findNode st.nodes tid) with
  | error e => rw [hsel] at h; exact absurd h (by simp)
  | ok attr =>
    rw [hsel] at h
    simp only [Except.ok.injEq] at h
    exact ⟨attr, rfl, h.symm⟩

/-! ## Claim C4 -/

/-- C4: on every completed Matrix action, the difficulty is the target node's
security when a target was found and 3 otherwise; the attribute is `sleaze`
for `hack` on an uncompromised target, `attack` for `hack` on a compromised
target or for `crash`, `data_processing` for `search`; and the action
succeeds iff the sum of the two d6 draws plus that attribute (added once)
is at least the difficulty. -/
theorem c4_action_resolution (st : MatrixState) (persona : MatrixPersona)
    (pid aty : String) (tid : Option String) (d1 d2 : Nat)
    (st' : MatrixState) (res : ActionRes)
    (hp : st.personas.find? (fun p => p.id == pid) = some persona)
    (h : perform_matrix_action st pid aty tid d1 d2 = .ok (st', res)) :
    res.difficulty = (match findNode st.nodes tid with
                      | some t => t.security
                      | none => 3) ∧
    (∀ t, findNode st.nodes tid = some t → aty = "hack" →
      res.attribute_used =
        (if t.compromised then persona.attack else persona.sleaze)) ∧
    (aty = "search" → res.attribute_used = persona.data_processing) ∧
    (aty = "crash" → res.attribute_used = persona.attack) ∧
    (res.success = true ↔
      (res.difficulty : Int) ≤ (d1 : Int) + (d2 : Int) + res.attribute_used) := by
  obtain ⟨attr, hsel, hres⟩ := perform_ok_inv st persona pid aty tid d1 d2 st' res hp h
  have hres2 : res = (resolveAction st persona pid aty tid (d1 + d2) attr).2 := by
    rw [← hres]
  subst hres2
  refine ⟨rfl, ?_, ?_, ?_, ?_⟩
  · intro t hfind haty
    subst haty
    rw [hfind] at hsel
    simp [selectAttribute] at hsel
    show attr = _
    cases hc : t.compromised <;> simp [hc] at hsel ⊢ <;> omega
  · intro haty
    subst haty
    simp [selectAttribute] at hsel
    show attr = _
    omega
  · intro haty
    subst haty
    simp [selectAttribute] at hsel
    show attr = _
    omega
  · show (resolveAction st persona pid aty tid (d1 + d2) attr).2.success = true ↔ _
    simp only [resolveAction]
    rw [decide_eq_true_iff]
    push_cast
    omega

/-! ## Claim C10 -/

/-- C10: a `hack` action with no target node supplied always raises the
uncaught `AttributeError` from reading `compromised` on the absent target —
for every pair of d6 draws, so no success is ever computed, no state is
mutated and no audit action is recorded (the call produces no new state at
all); consequently the default difficulty 3 is unreachable for `hack`: every
completed `hack` resolved against a found target node and used its security
as the difficulty. -/
theorem c10_hack_null_target (st : MatrixState) (persona : MatrixPersona)
    (pid : String) (d1 d2 : Nat)
    (hp : st.personas.find? (fun p => p.id == pid) = some persona) :
    perform_matrix_action st pid "hack" none d1 d2 =
      .error "AttributeError: NoneType object has no attribute compromised" ∧
    (∀ (tid : Option String) (st' : MatrixState) (res : ActionRes),
      perform_matrix_action st pid "hack" tid d1 d2 = .ok (st', res) →
      ∃ t, findNode st.nodes tid = some t ∧ res.difficulty = t.security) := by
  constructor
  · unfold perform_matrix_action
    rw [hp]
    simp [selectAttribute, findNode]
  · intro tid st' res h
    obtain ⟨attr, hsel, hres⟩ :=
      perform_ok_inv st persona pid "hack" tid d1 d2 st' res hp h
    have hres2 : res = (resolveAction st persona pid "hack" tid (d1 + d2) attr).2 := by
      rw [← hres]
    cases hfind : findNode st.nodes tid with
    | none =>
      rw [hfind] at hsel
      simp [selectAttribute] at hsel
    | some t =>
      refine ⟨t, rfl, ?_⟩
      subst hres2
      simp [resolveAction, hfind]

/-! ## Claim C8 -/

/-- The per-node effect of a successful hack against target `t`: the node
becomes compromised exactly if it is the target, becomes discovered exactly
if it already was or is listed in `t.connected_nodes` within the same grid
(one hop), and every other field is unchanged. -/
def hackRel (t n n' : MatrixNode) : Prop :=
  n'.discovered = (n.discovered ||
    (n.grid_id == t.grid_id && t.connected_nodes.contains n.id)) ∧
  n'.compromised = (n.compromised || n.id == t.id) ∧
  n'.id = n.id ∧ n'.grid_id = n.grid_id ∧ n'.name = n.name ∧
  n'.node_type = n.node_type ∧ n'.security = n.security ∧
  n'.encrypted = n.encrypted ∧ n'.data_payload = n.data_payload ∧
  n'.connected_nodes = n.connected_nodes

/-- A pointwise description of mapping over a list. -/
theorem forall₂_map_self {α : Type} (f : α → α) (r : α → α → Prop)
    (l : List α) (h : ∀ x ∈ l, r x (f x)) : List.Forall₂ r l (l.map f) := by
  induction l with
  | nil => exact List.Forall₂.nil
  | cons a l ih =>
    exact List.Forall₂.cons (h a (List.mem_cons_self a l))
      (ih (fun x hx => h x (List.mem_cons_of_mem a hx)))

/-- `hackUpdate` realises exactly the one-hop relation `hackRel`. -/
theorem hackUpdate_spec (nodes : List MatrixNode) (t : MatrixNode) :
    List.Forall₂ (hackRel t) nodes (hackUpdate nodes t) := by
  unfold hackUpdate discoverConnected
  rw [List.map_map]
  apply forall₂_map_self
  intro n hn
  unfold hackRel
  by_cases hc : n.id = t.id <;> by_cases hd1 : n.grid_id = t.grid_id <;>
    by_cases hd2 : n.id ∈ t.connected_nodes <;>
    simp_all [Function.comp]

/-- C8: a successful `hack` against a found target node `t` relates the old
and new node lists pointwise by `hackRel`: `t` itself becomes compromised,
exactly the nodes listed in `t.connected_nodes` and lying in `t`'s grid
become discovered (one hop — a node not directly listed, e.g. two hops away,
keeps its `discovered` flag), and no other node field changes; the persona
and ICE tables are untouched by the same call. -/
theorem c8_hack_one_hop (st : MatrixState) (persona : MatrixPersona)
    (pid tid : String) (t : MatrixNode) (d1 d2 : Nat)
    (st' : MatrixState) (res : ActionRes)
    (hp : st.personas.find? (fun p => p.id == pid) = some persona)
    (ht : st.nodes.find? (fun n => n.id == tid) = some t)
    (h : perform_matrix_action st pid "hack" (some tid) d1 d2 = .ok (st', res))
    (hs : res.success = true) :
    List.Forall₂ (hackRel t) st.nodes st'.nodes ∧
    st'.personas = st.personas ∧ st'.ice = st.ice := by
  obtain ⟨attr, hsel, hres⟩ :=
    perform_ok_inv st persona pid "hack" (some tid) d1 d2 st' res hp h
  have hfind : findNode st.nodes (some tid) = some t := by simp [findNode, ht]
  have hst : st' = (resolveAction st persona pid "hack" (some tid) (d1 + d2) attr).1 := by
    rw [← hres]
  have hres2 : res = (resolveAction st persona pid "hack" (some tid) (d1 + d2) attr).2 := by
    rw [← hres]
  subst hst
  rw [hres2] at hs
  simp only [resolveAction, hfind] at hs ⊢
  simp only [hs]
  refine ⟨?_, by simp, by simp [successIce]⟩
  simp [successNodes]
  exact hackUpdate_spec st.nodes t

/-! ## Claim C7 -/

/-- A completed action implies the persona lookup succeeded. -/
theorem perform_ok_persona (st : MatrixState) (pid aty : String)
    (tid : Option String) (d1 d2 : Nat) (st' : MatrixState) (res : ActionRes)
    (h : perform_matrix_action st pid aty tid d1 d2 = .ok (st', res)) :
    ∃ persona, st.personas.find? (fun p => p.id == pid) = some persona := by
  unfold perform_matrix_action at h
  cases hfind : st.personas.find? (fun p => p.id == pid) with
  | none => rw [hfind] at h; exact absurd h (by simp)
  | some p => exact ⟨p, rfl⟩

/-- `bumpOverwatch` leaves lookups in place: finding by any id commutes with
the overwatch update (the update never changes ids). -/
theorem find?_bumpOverwatch (ps : List MatrixPersona) (pid : String) (d : Nat)
    (pid2 : String) :
    (bumpOverwatch ps pid d).find? (fun p => p.id == pid2) =
      (ps.find? (fun p => p.id == pid2)).map (fun p =>
        if p.id == pid then
          { p with overwatch_score := min 40 (p.overwatch_score + d) }
        else p) := by
  unfold bumpOverwatch
  rw [List.find?_map]
  have hfun : ((fun p => p.id == pid2) ∘ (fun p : MatrixPersona =>
      if p.id == pid then
        { p with overwatch_score := min 40 (p.overwatch_score + d) }
      else p)) = (fun p : MatrixPersona => p.id == pid2) := by
    funext x
    by_cases hc : (x.id == pid) = true <;> simp [Function.comp, hc]
  rw [hfun]

/-- The overwatch cap survives a bump. -/
theorem bumpOverwatch_le_40 (ps : List MatrixPersona) (pid : String) (d : Nat)
    (hinv : ∀ p ∈ ps, p.overwatch_score ≤ 40) :
    ∀ p ∈ bumpOverwatch ps pid d, p.overwatch_score ≤ 40 := by
  intro p hp
  unfold bumpOverwatch at hp
  rw [List.mem_map] at hp
  obtain ⟨q, hq, rfl⟩ := hp
  by_cases hc : (q.id == pid) = true
  · simp only [hc, if_true]
    exact min_le_left 40 _
  · simp only [hc, if_false]
    exact hinv q hq

/-- A bump never lowers any persona's overwatch (given the cap held). -/
theorem bumpOverwatch_mono (ps : List MatrixPersona) (pid : String) (d : Nat)
    (hinv : ∀ p ∈ ps, p.overwatch_score ≤ 40) (pid2 : String) :
    owList ps pid2 ≤ owList (bumpOverwatch ps pid d) pid2 := by
  unfold owList
  rw [find?_bumpOverwatch]
  cases hfind : ps.find? (fun p => p.id == pid2) with
  | none => simp
  | some p =>
    simp only [Option.map_some']
    by_cases hc : (p.id == pid) = true
    · simp only [hc, if_true]
      exact le_min (hinv p (List.mem_of_find?_eq_some hfind)) (Nat.le_add_right _ _)
    · simp only [hc, if_false]
      exact le_refl _

/-- The cap bounds the reported score. -/
theorem owList_le_40 (ps : List MatrixPersona) (pid : String)
    (hinv : ∀ p ∈ ps, p.overwatch_score ≤ 40) : owList ps pid ≤ 40 := by
  unfold owList
  cases hfind : ps.find? (fun p => p.id == pid) with
  | none => exact Nat.zero_le 40
  | some p => exact hinv p (List.mem_of_find?_eq_some hfind)

/-- Per-call overwatch behaviour of a completed action: on success the
persona table (hence every overwatch score) is unchanged; on failure the
acting persona's score becomes `min(40, old + difficulty)`; and in either
case the persona table is the old one or a single bump of it. -/
theorem perform_overwatch_step (st : MatrixState) (pid aty : String)
    (tid : Option String) (d1 d2 : Nat) (st' : MatrixState) (res : ActionRes)
    (h : perform_matrix_action st pid aty tid d1 d2 = .ok (st', res)) :
    (res.success = true → st'.personas = st.personas) ∧
    (res.success = false →
      st'.personas = bumpOverwatch st.personas pid res.difficulty ∧
      owOf st' pid = min 40 (owOf st pid + res.difficulty)) ∧
    (st'.personas = st.personas ∨
      ∃ d, st'.personas = bumpOverwatch st.personas pid d) := by
  obtain ⟨persona, hp⟩ := perform_ok_persona st pid aty tid d1 d2 st' res h
  obtain ⟨attr, hsel, hres⟩ := perform_ok_inv st persona pid aty tid d1 d2 st' res hp h
  have hst : st' = (resolveAction st persona pid aty tid (d1 + d2) attr).1 := by
    rw [← hres]
  have hres2 : res = (resolveAction st persona pid aty tid (d1 + d2) attr).2 := by
    rw [← hres]
  have hid : (persona.id == pid) = true :=
    List.find?_some (p := fun q : MatrixPersona => q.id == pid) hp
  subst hst
  rw [hres2]
  have hid2 : persona.id = pid := by simpa using hid
  refine ⟨?_, ?_, ?_⟩
  · intro hs
    simp only [resolveAction] at hs ⊢
    rw [hs]
    simp
  · intro hs
    simp only [resolveAction] at hs ⊢
    rw [hs]
    refine ⟨by simp, ?_⟩
    unfold owOf owList
    simp only [Bool.false_eq_true, if_false]
    rw [find?_bumpOverwatch, hp]
    simp [hid2]
  · simp only [resolveAction]
    by_cases hs : decide (((match findNode st.nodes tid with
        | some t => t.security
        | none => 3 : Nat) : Int) ≤ ((d1 + d2 : Nat) : Int) + attr) = true
    · left
      rw [hs]
      simp
    · right
      refine ⟨(match findNode st.nodes tid with
        | some t => t.security
        | none => 3), ?_⟩
      rw [Bool.not_eq_true] at hs
      rw [hs]
      simp

/-- Per-call effect on the acting persona's reported overwatch score. -/
theorem perform_owOf_cases (st : MatrixState) (pid aty : String)
    (tid : Option String) (d1 d2 : Nat) (st1 : MatrixState) (res : ActionRes)
    (h : perform_matrix_action st pid aty tid d1 d2 = .ok (st1, res)) :
    (res.success = true → owOf st1 pid = owOf st pid) ∧
    (res.success = false →
      owOf st1 pid = min 40 (owOf st pid + res.difficulty)) := by
  obtain ⟨h1, h2, -⟩ := perform_overwatch_step st pid aty tid d1 d2 st1 res h
  constructor
  · intro hs
    unfold owOf
    rw [h1 hs]
  · intro hs
    exact (h2 hs).2

/-- Across any call sequence the overwatch cap is preserved and no persona's
score ever decreases. -/
theorem runActions_facts (calls : List MCall) :
    ∀ st : MatrixState, (∀ p ∈ st.personas, p.overwatch_score ≤ 40) →
      (∀ p ∈ (runActions st calls).personas, p.overwatch_score ≤ 40) ∧
      ∀ pid, owList st.personas pid ≤ owList (runActions st calls).personas pid := by
  induction calls with
  | nil => intro st hinv; exact ⟨hinv, fun pid => le_refl _⟩
  | cons c rest ih =>
    intro st hinv
    cases hper : perform_matrix_action st c.persona_id c.action_type
        c.target_node_id c.d1 c.d2 with
    | error e =>
      have hfacts := ih st hinv
      constructor
      · simpa [runActions, hper] using hfacts.1
      · intro pid
        simpa [runActions, hper] using hfacts.2 pid
    | ok p =>
      obtain ⟨st1, res⟩ := p
      have hshape := (perform_overwatch_step st c.persona_id c.action_type
        c.target_node_id c.d1 c.d2 st1 res hper).2.2
      have hinv1 : ∀ q ∈ st1.personas, q.overwatch_score ≤ 40 := by
        rcases hshape with hsame | ⟨d, hbump⟩
        · rw [hsame]; exact hinv
        · rw [hbump]; exact bumpOverwatch_le_40 _ _ _ hinv
      have hmono1 : ∀ pid, owList st.personas pid ≤ owList st1.personas pid := by
        intro pid
        rcases hshape with hsame | ⟨d, hbump⟩
        · rw [hsame]
        · rw [hbump]; exact bumpOverwatch_mono _ _ _ hinv pid
      have hrest := ih st1 hinv1
      constructor
      · simpa [runActions, hper] using hrest.1
      · intro pid
        refine le_trans (hmono1 pid) ?_
        simpa [runActions, hper] using hrest.2 pid

/-- C7: starting from any state in which every persona respects the 40-point
overwatch cap (the column default is 0), across every sequence of Matrix
action calls `persona.overwatch_score` never decreases and never exceeds 40;
per completed call it is unchanged on success and becomes
`clamp(overwatch_score + difficulty, 0, 40)` — i.e. `min(40, ... )`, the
score being a natural number — on failure, no matter how many failures
accumulate. -/
theorem c7_overwatch_capped (st : MatrixState) (pid : String)
    (calls : List MCall)
    (hinv : ∀ p ∈ st.personas, p.overwatch_score ≤ 40) :
    (∀ p ∈ (runActions st calls).personas, p.overwatch_score ≤ 40) ∧
    owOf st pid ≤ owOf (runActions st calls) pid ∧
    owOf (runActions st calls) pid ≤ 40 ∧
    (∀ (c : MCall) (st1 : MatrixState) (res : ActionRes),
      perform_matrix_action st c.persona_id c.action_type c.target_node_id
        c.d1 c.d2 = .ok (st1, res) →
      (res.success = true → owOf st1 c.persona_id = owOf st c.persona_id) ∧
      (res.success = false →
        owOf st1 c.persona_id = min 40 (owOf st c.persona_id + res.difficulty))) := by
  obtain ⟨hcap, hmono⟩ := runActions_facts calls st hinv
  exact ⟨hcap, hmono pid, owList_le_40 _ _ hcap,
    fun c st1 res h => perform_owOf_cases st c.persona_id c.action_type
      c.target_node_id c.d1 c.d2 st1 res h⟩

/-! ## Concrete witness state for the Matrix claims -/

/-- A three-node grid: the host `n1` links one hop to `n2`, which links one
hop further to `n3` (so `n3` is two hops from `n1`). -/
def nodeN1 : MatrixNode :=
  { id := "n1", grid_id := "g", name := "Corporate Host", node_type := "host",
    security := 5, encrypted := true, discovered := true, compromised := false,
    data_payload := none, connected_nodes := ["n2"] }

def nodeN2 : MatrixNode :=
  { id := "n2", grid_id := "g", name := "Personnel Database",
    node_type := "file", security := 4, encrypted := false,
    discovered := false, compromised := false, data_payload := none,
    connected_nodes := ["n3"] }

def nodeN3 : MatrixNode :=
  { id := "n3", grid_id := "g", name := "Paydata Cache", node_type := "data",
    security := 6, encrypted := true, discovered := false,
    compromised := false, data_payload := none, connected_nodes := [] }

def perW : MatrixPersona :=
  { id := "p1", attack := 4, sleaze := 5, data_processing := 6, firewall := 4,
    overwatch_score := 0 }

def stW : MatrixState :=
  { nodes := [nodeN1, nodeN2, nodeN3], personas := [perW], ice := [],
    actions := [] }

def dummyRes : ActionRes :=
  { success := false, roll := 0, attribute_used := 0, difficulty := 0,
    overwatch_generated := 0, current_overwatch := 0 }

/-- The state/result pair of the successful `hack` of `n1` with draws 6, 6. -/
def hackPair : MatrixState × ActionRes :=
  (perform_matrix_action stW "p1" "hack" (some "n1") 6 6).toOption.getD
    (stW, dummyRes)

/-- C4 witness: resolution checks on the concrete hack of `n1` (security 5,
sleaze 5, draws 6 and 6). -/
theorem c4_action_resolution_witness :
    hackPair.2.difficulty = (match findNode stW.nodes (some "n1") with
                             | some t => t.security
                             | none => 3) ∧
    hackPair.2.attribute_used =
      (if nodeN1.compromised then perW.attack else perW.sleaze) ∧
    (hackPair.2.success = true ↔
      (hackPair.2.difficulty : Int) ≤ (6 : Int) + (6 : Int) + hackPair.2.attribute_used) :=
  ⟨(c4_action_resolution stW perW "p1" "hack" (some "n1") 6 6 hackPair.1
      hackPair.2 rfl rfl).1,
   (c4_action_resolution stW perW "p1" "hack" (some "n1") 6 6 hackPair.1
      hackPair.2 rfl rfl).2.1 nodeN1 rfl rfl,
   (c4_action_resolution stW perW "p1" "hack" (some "n1") 6 6 hackPair.1
      hackPair.2 rfl rfl).2.2.2.2⟩

/-- C8 witness: the one-hop discovery relation on the concrete hack of `n1`
(`n2` is one hop, `n3` two hops). -/
theorem c8_hack_one_hop_witness :
    List.Forall₂ (hackRel nodeN1) stW.nodes hackPair.1.nodes ∧
    hackPair.1.personas = stW.personas ∧ hackPair.1.ice = stW.ice :=
  c8_hack_one_hop stW perW "p1" "n1" nodeN1 6 6 hackPair.1 hackPair.2
    rfl rfl rfl rfl

/-- C10 witness: a `hack` with no target raises on the concrete state. -/
theorem c10_hack_null_target_witness :
    perform_matrix_action stW "p1" "hack" none 3 4 =
      .error "AttributeError: NoneType object has no attribute compromised" :=
  (c10_hack_null_target stW perW "p1" 3 4 rfl).1

/-- A failing crash attempt against `n3` (roll 0 + attack 4 < security 6). -/
def c7calls : List MCall :=
  [{ persona_id := "p1", action_type := "crash", target_node_id := some "n3",
     d1 := 0, d2 := 0 }]

/-- C7 witness: monotonicity and the cap on the concrete failing sequence. -/
theorem c7_overwatch_capped_witness :
    owOf stW "p1" ≤ owOf (runActions stW c7calls) "p1" ∧
    owOf (runActions stW c7calls) "p1" ≤ 40 :=
  ⟨(c7_overwatch_capped stW "p1" c7calls (by decide)).2.1,
   (c7_overwatch_capped stW "p1" c7calls (by decide)).2.2.1⟩
